import Mathlib

/-!
Verification of the session-memory and conclusion-synthesis engine of the
eda-agent repository (src/memory/enhanced_memory.py), shallowly embedded in
Lean 4. Python strings are modelled as lists of characters, Python dicts
(which preserve insertion order) as association lists, and the bounded
`deque(maxlen=...)` as a list with explicit oldest-first eviction. The
ambient clock (`datetime.now()`) is modelled by passing the timestamp as an
explicit argument.
-/

/-- Python strings are modelled as lists of characters. -/
abbrev Text := List Char

/-- `hay` starts with `needle` (models Python `str.startswith`). -/
def listStarts : Text → Text → Bool
  | _, [] => true
  | [], _ :: _ => false
  | c :: rest, d :: ds => c == d && listStarts rest ds

/-- `needle` occurs as a contiguous substring of `hay`
(models the Python `in` operator on strings). -/
def hasSub : Text → Text → Bool
  | [], needle => needle.isEmpty
  | c :: rest, needle => listStarts (c :: rest) needle || hasSub rest needle

/-- Models Python `str.lower()` (character-wise lowercasing). -/
def toLowerText (t : Text) : Text := t.map Char.toLower

/-- Models Python `str.strip()`: remove leading and trailing whitespace. -/
def stripText (t : Text) : Text :=
  ((t.dropWhile Char.isWhitespace).reverse.dropWhile Char.isWhitespace).reverse

/-- Models Python `str.split('\n')`: split on newlines, keeping empty pieces
(so the empty string yields one empty line, as in Python). -/
def splitLines : Text → List Text
  | [] => [[]]
  | c :: rest =>
    let r := splitLines rest
    if c = '\n' then [] :: r
    else match r with
      | h :: t => (c :: h) :: t
      | [] => [[c]]

/-- Models Python `str.split()` with no argument: split on whitespace runs,
discarding empty pieces. -/
def splitWsAux : Text → Text → List Text
  | [], acc => if acc.isEmpty then [] else [acc.reverse]
  | c :: rest, acc =>
    if c.isWhitespace then
      if acc.isEmpty then splitWsAux rest [] else acc.reverse :: splitWsAux rest []
    else splitWsAux rest (c :: acc)

def splitWs (t : Text) : List Text := splitWsAux t []

/-- Fuel-driven worker for `splitOnSub`; the fuel is always at least the
length of the text, so the `0` case is never reached in practice. -/
def splitGo (sep : Text) : Nat → Text → Text → List Text
  | 0, t, acc => [acc.reverse ++ t]
  | fuel + 1, t, acc =>
    match t with
    | [] => [acc.reverse]
    | c :: rest =>
      if !sep.isEmpty && listStarts (c :: rest) sep then
        acc.reverse :: splitGo sep fuel ((c :: rest).drop sep.length) []
      else splitGo sep fuel rest (c :: acc)

/-- Models Python `str.split(sep)` for a non-empty separator: the list of
segments between non-overlapping occurrences of `sep`. -/
def splitOnSub (sep t : Text) : List Text := splitGo sep (t.length + 1) t []

/-- Models Python `'_'`-to-space replacement (`str.replace('_', ' ')`). -/
def replaceUnd (t : Text) : Text := t.map (fun c => if c = '_' then ' ' else c)

/-- Worker for `titleCase`; the flag records whether the previous character
was alphabetic. -/
def titleAux : Bool → Text → Text
  | _, [] => []
  | prevAlpha, c :: rest =>
    (if prevAlpha then c.toLower else c.toUpper) :: titleAux c.isAlpha rest

/-- Models Python `str.title()`: capitalize the first letter of each word. -/
def titleCase (t : Text) : Text := titleAux false t

/-- Decimal digit character. -/
def digitChar (n : Nat) : Char := Char.ofNat (48 + n)

def natTextAux : Nat → Nat → Text → Text
  | 0, _, acc => acc
  | fuel + 1, n, acc =>
    if n < 10 then digitChar n :: acc
    else natTextAux fuel (n / 10) (digitChar (n % 10) :: acc)

/-- Decimal rendering of a natural number (models Python `f"{n}"`). -/
def natText (n : Nat) : Text := natTextAux (n + 1) n []

/-- Models Python `'\n'.join(parts)` (for a general separator). -/
def joinWith (sep : Text) : List Text → Text
  | [] => []
  | [x] => x
  | x :: y :: rest => x ++ sep ++ joinWith sep (y :: rest)

/-- Lookup in an insertion-ordered association list
(models Python `dict.get` / `dict[k]`). -/
def dictLookup {β : Type} : List (Text × β) → Text → Option β
  | [], _ => none
  | (k', v') :: rest, k => if k' == k then some v' else dictLookup rest k

/-- Update or insert in an insertion-ordered association list: an existing
key keeps its position, a new key is appended at the end
(models Python `dict[k] = v`). -/
def dictSet {β : Type} : List (Text × β) → Text → β → List (Text × β)
  | [], k, v => [(k, v)]
  | (k', v') :: rest, k, v =>
    if k' == k then (k', v) :: rest else (k', v') :: dictSet rest k v

/-- Key presence test (models Python `k in dict` and the truthiness of
`dict.get(k)` when the values are non-empty dicts). -/
def hasKey {β : Type} (d : List (Text × β)) (k : Text) : Bool :=
  (dictLookup d k).isSome

/-- First-occurrence deduplication: a deterministic enumeration of Python
`set(xs)` (the source's set iteration order is unspecified; every claim
settled here is insensitive to that order). -/
def setList (l : List Text) : List Text :=
  l.foldl (fun acc x => if acc.contains x then acc else acc ++ [x]) []

/-! ### Keyword and pattern-key constants of `_extract_patterns` -/

def kwCorrPT : Text := "correlação".data
def kwCorrEN : Text := "correlation".data
def kwForte : Text := "forte".data
def kwStrong : Text := "strong".data
def kwOutlier : Text := "outlier".data
def kwAtipico : Text := "atípico".data
def kwAltaPorc : Text := "alta porcentagem".data
def kwHighPerc : Text := "high percentage".data
def kwMuitosOut : Text := "muitos outliers".data
def kwAssimetrica : Text := "assimétrica".data
def kwAsymmetric : Text := "asymmetric".data
def kwSkew : Text := "skew".data
def kwCluster : Text := "cluster".data
def kwAgrupamento : Text := "agrupamento".data
def kwTendencia : Text := "tendência".data
def kwTrend : Text := "trend".data
def kwPadraoTemporal : Text := "padrão temporal".data

def pkHasCorrelations : Text := "has_correlations".data
def pkStrongCorrelations : Text := "strong_correlations".data
def pkHasOutliers : Text := "has_outliers".data
def pkManyOutliers : Text := "many_outliers".data
def pkAsymmetricDistributions : Text := "asymmetric_distributions".data
def pkHasClusters : Text := "has_clusters".data
def pkHasTemporalPatterns : Text := "has_temporal_patterns".data

/-! ### Data model (`AnalysisMemory`, `EnhancedSessionMemory`) -/

/-- The analysis-result bundle consumed by `add_analysis`: the free-form
`analysis` text and the names (dict keys) of the produced `plots`. -/
structure AnalysisResult where
  analysis : Text
  plots : List Text
deriving DecidableEq

/-- One memory entry (Python class `AnalysisMemory`). -/
structure AnalysisMemory where
  timestamp : Text
  question : Text
  analysis_type : Text
  key_findings : List Text
  visualizations : List Text
  data_patterns : List (Text × Bool)
  recommendations : List Text
deriving DecidableEq

/-- Per-analysis-type bucket of `data_insights`. -/
structure InsightBucket where
  count : Nat
  patterns : List (Text × Bool)
  last_analysis : Option Text
  key_findings : List Text
deriving DecidableEq

/-- Per-pattern bucket of `global_patterns`. -/
structure PatternBucket where
  count : Nat
  analyses : List Text
deriving DecidableEq

/-- The session state (Python class `EnhancedSessionMemory`). -/
structure EnhancedSessionMemory where
  max_interactions : Nat
  analysis_history : List AnalysisMemory
  data_insights : List (Text × InsightBucket)
  conversation_summary : Text
  global_patterns : List (Text × PatternBucket)
deriving DecidableEq

/-- `EnhancedSessionMemory.__init__(max_interactions)`. -/
def freshSession (maxInteractions : Nat) : EnhancedSessionMemory :=
  { max_interactions := maxInteractions
    analysis_history := []
    data_insights := []
    conversation_summary := []
    global_patterns := [] }

/-- Append to a `deque(maxlen = cap)`: the oldest element (index 0) is
evicted when the capacity would be exceeded. -/
def dequePush {α : Type} (cap : Nat) (h : List α) (x : α) : List α :=
  let l := h ++ [x]
  l.drop (l.length - cap)

/-! ### The extractors -/

/-- `_extract_key_findings`: lines that (after stripping) start with a
bullet marker, or whose lowercase form contains a discovery keyword;
truncated to the first 10. -/
def extract_key_findings (analysis_result : AnalysisResult) : List Text :=
  let lines := splitLines analysis_result.analysis
  (lines.filterMap (fun line =>
    let stripped := stripText line
    if listStarts stripped ("-".data) || listStarts stripped ("•".data) then
      some stripped
    else if [("encontrado".data : Text), "identificado".data, "detectado".data,
        "observado".data].any (fun kw => hasSub (toLowerText line) kw) then
      some stripped
    else none)).take 10

/-- `_extract_patterns`: keyword-family flags extracted from the lowercased
analysis text; only satisfied flags are present (insertion order of the
Python dict preserved). -/
def extract_patterns (analysis_result : AnalysisResult) : List (Text × Bool) :=
  let t := toLowerText analysis_result.analysis
  (if hasSub t kwCorrPT || hasSub t kwCorrEN then
    (pkHasCorrelations, true) ::
      (if hasSub t kwForte || hasSub t kwStrong then
        [(pkStrongCorrelations, true)] else [])
  else []) ++
  (if hasSub t kwOutlier || hasSub t kwAtipico then
    (pkHasOutliers, true) ::
      (if [kwAltaPorc, kwHighPerc, kwMuitosOut].any (fun w => hasSub t w) then
        [(pkManyOutliers, true)] else [])
  else []) ++
  (if hasSub t kwAssimetrica || hasSub t kwAsymmetric || hasSub t kwSkew then
    [(pkAsymmetricDistributions, true)] else []) ++
  (if hasSub t kwCluster || hasSub t kwAgrupamento then
    [(pkHasClusters, true)] else []) ++
  (if hasSub t kwTendencia || hasSub t kwTrend || hasSub t kwPadraoTemporal then
    [(pkHasTemporalPatterns, true)] else [])

/-- `_extract_recommendations`: if a recommendation marker is present in the
lowercased text, take the slice after the first `Recomendações` (or
`ecomenda`) occurrence when one exists case-sensitively, collect its
hyphen-bulleted lines, and truncate to the first 5. -/
def extract_recommendations (analysis_result : AnalysisResult) : List Text :=
  let text := analysis_result.analysis
  let lower := toLowerText text
  let recommendations :=
    if hasSub lower ("recomenda".data) || hasSub lower ("consider".data) then
      let recSection :=
        if hasSub text ("ecomenda".data) then
          (splitOnSub
            (if hasSub text ("Recomendações".data) then ("Recomendações".data)
             else ("ecomenda".data)) text).getD 1 []
        else text
      (splitLines recSection).filterMap (fun line =>
        if listStarts (stripText line) ("-".data) then some (stripText line)
        else none)
    else []
  recommendations.take 5

/-! ### State updates (`add_analysis`, `_update_insights`,
`_update_global_patterns`, `clear`) -/

/-- `_update_insights`: lazily create the bucket for the entry's type, then
increment its count, refresh `last_analysis`, accumulate the first 3 key
findings, and overwrite the bucket's pattern values. -/
def updateInsights (ins : List (Text × InsightBucket)) (e : AnalysisMemory) :
    List (Text × InsightBucket) :=
  let b := (dictLookup ins e.analysis_type).getD
    { count := 0, patterns := [], last_analysis := none, key_findings := [] }
  dictSet ins e.analysis_type
    { count := b.count + 1
      patterns := e.data_patterns.foldl (fun ps kv => dictSet ps kv.1 kv.2) b.patterns
      last_analysis := some e.timestamp
      key_findings := b.key_findings ++ e.key_findings.take 3 }

/-- `_update_global_patterns`: for each pattern key of the entry, lazily
create its bucket, increment the count and append the entry's type. -/
def updateGlobalPatterns (gp : List (Text × PatternBucket)) (e : AnalysisMemory) :
    List (Text × PatternBucket) :=
  e.data_patterns.foldl (fun gp kv =>
    let b := (dictLookup gp kv.1).getD { count := 0, analyses := [] }
    dictSet gp kv.1 { count := b.count + 1, analyses := b.analyses ++ [e.analysis_type] }) gp

/-- The arguments of one `add_analysis` call; `timestamp` models the ambient
`datetime.now().isoformat()` read at call time. -/
structure AddInput where
  question : Text
  analysis_result : AnalysisResult
  analysis_type : Text
  timestamp : Text
deriving DecidableEq

/-- The `AnalysisMemory` entry that `add_analysis` constructs. -/
def mkEntry (i : AddInput) : AnalysisMemory :=
  { timestamp := i.timestamp
    question := i.question
    analysis_type := i.analysis_type
    key_findings := extract_key_findings i.analysis_result
    visualizations := i.analysis_result.plots
    data_patterns := extract_patterns i.analysis_result
    recommendations := extract_recommendations i.analysis_result }

/-- `add_analysis`: build the entry, append it to the rolling history and
update the two aggregate structures. -/
def add_analysis (s : EnhancedSessionMemory) (i : AddInput) : EnhancedSessionMemory :=
  let e := mkEntry i
  { s with
    analysis_history := dequePush s.max_interactions s.analysis_history e
    data_insights := updateInsights s.data_insights e
    global_patterns := updateGlobalPatterns s.global_patterns e }

/-- `clear`: empty all memory structures. -/
def clear (s : EnhancedSessionMemory) : EnhancedSessionMemory :=
  { s with
    analysis_history := []
    data_insights := []
    conversation_summary := []
    global_patterns := [] }

/-! ### Relevance ranking (`get_contextual_memory`) -/

/-- The fixed analysis-type keyword families. -/
def type_keywords : List (Text × List Text) :=
  [("correlation".data, [("correlação".data : Text), "relação".data, "correlation".data, "relaciona".data]),
   ("outlier".data, [("outlier".data : Text), "anomalia".data, "atípico".data]),
   ("distribution".data, [("distribuição".data : Text), "histograma".data, "distribution".data]),
   ("clustering".data, [("cluster".data : Text), "agrupamento".data, "grupo".data]),
   ("temporal".data, [("tempo".data : Text), "temporal".data, "time".data, "trend".data]),
   ("conclusions".data, [("conclus".data : Text), "aprend".data, "insights".data])]

/-- The analysis-type keyword bonus: +3 when some family has a keyword in
the (lowercased) question and its tag equals the entry's type (the source
breaks after the first matching family, so the bonus is granted once). -/
def typeScore (qLower : Text) (e : AnalysisMemory) : Nat :=
  if type_keywords.any (fun fam =>
      fam.2.any (fun w => hasSub qLower w) && e.analysis_type == fam.1) then 3
  else 0

/-- The relevance score of one history entry for a question: +2 for lexical
overlap of a question token of length > 3 with the entry's question, plus
the type bonus. -/
def scoreEntry (qLower : Text) (e : AnalysisMemory) : Nat :=
  (if (splitWs qLower).any (fun w =>
      decide (3 < w.length) && hasSub (toLowerText e.question) w) then 2 else 0)
  + typeScore qLower e

/-- The newest-first walk over the history with each entry's score, keeping
only entries with positive score. -/
def newestFirstScored (hist : List AnalysisMemory) (q : Text) :
    List (AnalysisMemory × Nat) :=
  ((hist.reverse).map (fun e => (e, scoreEntry (toLowerText q) e))).filter
    (fun p => decide (0 < p.2))

/-- Stable insertion (descending by score): models the placement performed
by Python's stable `list.sort(key = score, reverse = True)`. -/
def insertByScore (x : AnalysisMemory × Nat) :
    List (AnalysisMemory × Nat) → List (AnalysisMemory × Nat)
  | [] => [x]
  | y :: ys => if y.2 ≤ x.2 then x :: y :: ys else y :: insertByScore x ys

/-- Stable sort, descending by score. A stable sort is uniquely determined
by its key, so this insertion sort computes the same list as the source's
Timsort call. -/
def sortByScoreDesc : List (AnalysisMemory × Nat) → List (AnalysisMemory × Nat)
  | [] => []
  | x :: xs => insertByScore x (sortByScoreDesc xs)

/-- The scored relevance ranking of `get_contextual_memory` (the
`relevant_entries` list after the sort). -/
def relevantRanked (hist : List AnalysisMemory) (q : Text) :
    List (AnalysisMemory × Nat) :=
  sortByScoreDesc (newestFirstScored hist q)

/-- `get_contextual_memory(question, n)`: the top `n` ranked entries. -/
def get_contextual_memory (s : EnhancedSessionMemory) (q : Text) (n : Nat) :
    List AnalysisMemory :=
  ((relevantRanked s.analysis_history q).take n).map Prod.fst

/-! ### Report generators -/

/-- Counts per analysis type, in first-encountered order
(the `type_counts` dict built by both generators). -/
def type_counts (hist : List AnalysisMemory) : List (Text × Nat) :=
  hist.foldl (fun tc e =>
    dictSet tc e.analysis_type ((dictLookup tc e.analysis_type).getD 0 + 1)) []

/-- `generate_summary`: short digest of the history, or the fixed
"no analyses yet" message when the history is empty. -/
def generate_summary (s : EnhancedSessionMemory) : Text :=
  if s.analysis_history.isEmpty then ("Nenhuma análise realizada ainda.".data)
  else
    let parts : List Text :=
      [("## Resumo das Análises Realizadas\n".data),
       ("Total de análises: ".data) ++ natText s.analysis_history.length ++ ("\n".data)]
      ++ [("\n### Tipos de Análises:".data)]
      ++ (type_counts s.analysis_history).map (fun p =>
           ("- ".data) ++ p.1 ++ (": ".data) ++ natText p.2 ++ (" análises".data))
      ++ (if s.global_patterns.isEmpty then []
          else [("\n### Padrões Identificados:".data)]
            ++ s.global_patterns.map (fun p =>
                 ("- ".data) ++ p.1 ++ (": detectado em ".data)
                   ++ natText p.2.count ++ (" análises".data)))
    joinWith ("\n".data) parts

/-- The nine section headers of `generate_comprehensive_conclusions`. -/
def hdr1 : Text := "## 1. Resumo das Análises Realizadas".data
def hdr2 : Text := "## 2. Principais Padrões Identificados".data
def hdr3 : Text := "## 3. Principais Descobertas por Tipo de Análise".data
def hdr4 : Text := "## 4. Insights sobre Qualidade dos Dados".data
def hdr5 : Text := "## 5. Relacionamentos entre Variáveis".data
def hdr6 : Text := "## 6. Segmentação e Agrupamentos".data
def hdr7 : Text := "## 7. Padrões Temporais".data
def hdr8 : Text := "## 8. Recomendações Consolidadas".data
def hdr9 : Text := "## 9. Próximos Passos Sugeridos".data

/-- The fixed universe of expected analysis types of section 9. -/
def allAnalysisTypes : List Text :=
  [("correlation".data : Text), "outlier".data, "distribution".data,
   "clustering".data, "temporal".data, "summary".data]

/-- The canned per-type descriptions of section 9. -/
def typeDescriptions : List (Text × Text) :=
  [("correlation".data, "Análise de correlações para entender relacionamentos".data),
   ("outlier".data, "Detecção de outliers para identificar anomalias".data),
   ("distribution".data, "Análise de distribuições para entender padrões".data),
   ("clustering".data, "Clustering para identificar segmentos".data),
   ("temporal".data, "Análise temporal para identificar tendências".data),
   ("summary".data, "Resumo geral dos dados".data)]

/-- The list of lines built by `generate_comprehensive_conclusions` for a
non-empty history, before the final newline join. Sections 6 and 7 are
emitted only when their global-pattern key is present. -/
def conclusionsParts (s : EnhancedSessionMemory) : List Text :=
  let tc := type_counts s.analysis_history
  [("# Conclusões Consolidadas da Análise Exploratória de Dados\n".data),
   ("*Baseado em ".data) ++ natText s.analysis_history.length
     ++ (" análises realizadas*\n".data),
   hdr1]
  ++ tc.map (fun p =>
       ("- **".data) ++ p.1 ++ ("**: ".data) ++ natText p.2 ++ (" análise(s)".data))
  ++ [[]]
  ++ [hdr2]
  ++ (if s.global_patterns.isEmpty then
        [("- Nenhum padrão global identificado ainda".data)]
      else (s.global_patterns.map (fun p =>
        [("- **".data) ++ titleCase (replaceUnd p.1) ++ ("**: Identificado em ".data)
           ++ natText p.2.count ++ (" análise(s)".data),
         ("  - Detectado em: ".data) ++ joinWith (", ".data) (setList p.2.analyses)])).flatten)
  ++ [[]]
  ++ [hdr3]
  ++ (s.data_insights.map (fun p =>
       if p.2.key_findings.isEmpty then []
       else [("\n### ".data) ++ titleCase p.1 ++ (":".data)]
         ++ ((setList p.2.key_findings).take 5).map (fun f => ("  ".data) ++ f))).flatten
  ++ [[]]
  ++ [hdr4]
  ++ (let qualityIssues :=
        (if hasKey s.global_patterns pkHasOutliers then
          [("- Outliers detectados: Podem indicar problemas de qualidade ou valores genuinamente extremos".data)]
         else [])
        ++ (if hasKey s.global_patterns pkManyOutliers then
          [("- Alta concentração de outliers: Requer investigação aprofundada".data)]
         else [])
        ++ (if hasKey s.global_patterns pkAsymmetricDistributions then
          [("- Distribuições assimétricas: Considere transformações para normalização".data)]
         else [])
      if qualityIssues.isEmpty then [("- Dados aparentam boa qualidade geral".data)]
      else qualityIssues)
  ++ [[]]
  ++ [hdr5]
  ++ (if hasKey s.global_patterns pkHasCorrelations then
        [("- Correlações significativas foram identificadas entre variáveis".data)]
        ++ (if hasKey s.global_patterns pkStrongCorrelations then
             [("- Algumas correlações são particularmente fortes".data),
              ("- **Recomendação**: Considere análise de multicolinearidade para modelagem".data)]
           else [])
      else [("- Variáveis aparentam ser relativamente independentes".data)])
  ++ [[]]
  ++ (if hasKey s.global_patterns pkHasClusters then
        [hdr6,
         ("- Clusters distintos foram identificados nos dados".data),
         ("- **Oportunidade**: Use segmentação para análises direcionadas".data),
         []]
      else [])
  ++ (if hasKey s.global_patterns pkHasTemporalPatterns then
        [hdr7,
         ("- Tendências temporais foram identificadas".data),
         ("- **Recomendação**: Considere análise de séries temporais".data),
         []]
      else [])
  ++ [hdr8]
  ++ (let uniqueRecs := (setList ((s.analysis_history.map (fun e => e.recommendations)).flatten)).take 8
      if uniqueRecs.isEmpty then
        [("- Continue explorando os dados com análises mais específicas".data)]
      else uniqueRecs)
  ++ [[]]
  ++ [hdr9]
  ++ (let performed := tc.map Prod.fst
      let missing := allAnalysisTypes.filter (fun ty => !performed.contains ty)
      if missing.isEmpty then []
      else [("### Análises Recomendadas:".data)]
        ++ missing.filterMap (fun m =>
             (dictLookup typeDescriptions m).map (fun d => ("- ".data) ++ d)))
  ++ [("\n### Ações Gerais:".data),
      ("- Validar descobertas com stakeholders".data),
      ("- Documentar insights para referência futura".data),
      ("- Considerar análises preditivas se apropriado".data)]

/-- `generate_comprehensive_conclusions`: the fixed prompt-to-analyze-first
message for an empty history, otherwise the newline join of
`conclusionsParts`. -/
def generate_comprehensive_conclusions (s : EnhancedSessionMemory) : Text :=
  if s.analysis_history.isEmpty then
    ("Nenhuma análise foi realizada ainda. Por favor, faça algumas análises primeiro.".data)
  else joinWith ("\n".data) (conclusionsParts s)

/-! ### Concrete sample data used by counterexamples and witnesses -/

/-- An `add_analysis` call whose analysis text triggers no pattern. -/
def c1Input : AddInput :=
  { question := "q".data
    analysis_result := { analysis := "x".data, plots := [] }
    analysis_type := "general".data
    timestamp := [] }

/-- A fresh capacity-100 session after one pattern-free `add_analysis`. -/
def c1Session : EnhancedSessionMemory := add_analysis (freshSession 100) c1Input

/-- An `add_analysis` call whose analysis text triggers the clustering and
temporal pattern families. -/
def cwInput : AddInput :=
  { question := "q".data
    analysis_result := { analysis := "cluster trend".data, plots := [] }
    analysis_type := "clustering".data
    timestamp := [] }

/-- A fresh capacity-100 session after one `add_analysis` that records the
`has_clusters` and `has_temporal_patterns` global patterns. -/
def cwSession : EnhancedSessionMemory := add_analysis (freshSession 100) cwInput

def c2InputA : AddInput :=
  { question := "first".data
    analysis_result := { analysis := "a".data, plots := [] }
    analysis_type := "general".data
    timestamp := [] }

def c2InputB : AddInput :=
  { question := "second".data
    analysis_result := { analysis := "b".data, plots := [] }
    analysis_type := "general".data
    timestamp := [] }

/-- One `add_analysis` call of type `correlation` (claim C3 scenario). -/
def c3Input : AddInput :=
  { question := "q".data
    analysis_result := { analysis := [], plots := [] }
    analysis_type := "correlation".data
    timestamp := [] }

/-- A fresh capacity-100 session after 101 `correlation` appends. -/
def c3Session : EnhancedSessionMemory :=
  (List.replicate 101 c3Input).foldl add_analysis (freshSession 100)

/-- The claim C8 scenario: one entry of type `correlation` whose analysis
text contains "correlação forte". -/
def c8Input : AddInput :=
  { question := "q".data
    analysis_result := { analysis := "correlação forte".data, plots := [] }
    analysis_type := "correlation".data
    timestamp := [] }

def c8Session : EnhancedSessionMemory := add_analysis (freshSession 100) c8Input

/-- A history entry of type `correlation` (claim C4 witness). -/
def c4EntryCorr : AnalysisMemory :=
  { timestamp := []
    question := "base".data
    analysis_type := "correlation".data
    key_findings := []
    visualizations := []
    data_patterns := []
    recommendations := [] }

/-- The same entry with a non-matching analysis type. -/
def c4EntryOut : AnalysisMemory := { c4EntryCorr with analysis_type := "outlier".data }

/-- The claim C4 witness question (spec scenario). -/
def c4Q : Text := "Existe correlação entre as variáveis?".data

/-- The correlation keyword family (first element of `type_keywords`). -/
def c4Fam : Text × List Text :=
  ("correlation".data,
   [("correlação".data : Text), "relação".data, "correlation".data,
    "relaciona".data])

/-- The count recorded in the Insight Aggregator bucket for `t`
(`data_insights[t]['count']`, or 0 when the bucket does not exist). -/
def insightCount (s : EnhancedSessionMemory) (t : Text) : Nat :=
  match dictLookup s.data_insights t with
  | some b => b.count
  | none => 0

/-- One operation on a session: an `add_analysis` call or a `clear` call. -/
inductive MemOp where
  | add (i : AddInput)
  | clearOp
deriving DecidableEq

def applyOp (s : EnhancedSessionMemory) : MemOp → EnhancedSessionMemory
  | .add i => add_analysis s i
  | .clearOp => clear s

/-- The session reached from a fresh session by a sequence of operations. -/
def runOps (cap : Nat) (ops : List MemOp) : EnhancedSessionMemory :=
  ops.foldl applyOp (freshSession cap)

/-! ### Flag-level reformulation of `_extract_patterns` (for claim C6) -/

/-- `extract_patterns` as a function of the seven trigger conditions; this
is definitionally equal to `extract_patterns` with the conditions plugged
in. -/
def patternsOfFlags (b1 b2 b3 b4 b5 b6 b7 : Bool) : List (Text × Bool) :=
  (if b1 then
    (pkHasCorrelations, true) ::
      (if b2 then [(pkStrongCorrelations, true)] else [])
  else []) ++
  (if b3 then
    (pkHasOutliers, true) ::
      (if b4 then [(pkManyOutliers, true)] else [])
  else []) ++
  (if b5 then [(pkAsymmetricDistributions, true)] else []) ++
  (if b6 then [(pkHasClusters, true)] else []) ++
  (if b7 then [(pkHasTemporalPatterns, true)] else [])

/-- The fixed pattern-key vocabulary, in the source's emission order. -/
def patternVocab : List Text :=
  [pkHasCorrelations, pkStrongCorrelations, pkHasOutliers, pkManyOutliers,
   pkAsymmetricDistributions, pkHasClusters, pkHasTemporalPatterns]

/-- `specTrigger` as a function of the seven trigger conditions. -/
def triggerOfFlags (b1 b2 b3 b4 b5 b6 b7 : Bool) (k : Text) : Bool :=
  if k == pkHasCorrelations then b1
  else if k == pkStrongCorrelations then b1 && b2
  else if k == pkHasOutliers then b3
  else if k == pkManyOutliers then b3 && b4
  else if k == pkAsymmetricDistributions then b5
  else if k == pkHasClusters then b6
  else if k == pkHasTemporalPatterns then b7
  else false

/-- Modelled from the spec (section 4.1): the trigger condition of each
pattern key on the lowercased analysis text, used as the specification-side
reference for the refinement claim C6. A secondary key (`strong_correlations`,
`many_outliers`) additionally requires its family's primary trigger. -/
def specTrigger (t : Text) (k : Text) : Bool :=
  if k == pkHasCorrelations then hasSub t kwCorrPT || hasSub t kwCorrEN
  else if k == pkStrongCorrelations then
    (hasSub t kwCorrPT || hasSub t kwCorrEN)
      && (hasSub t kwForte || hasSub t kwStrong)
  else if k == pkHasOutliers then hasSub t kwOutlier || hasSub t kwAtipico
  else if k == pkManyOutliers then
    (hasSub t kwOutlier || hasSub t kwAtipico)
      && ([kwAltaPorc, kwHighPerc, kwMuitosOut].any (fun w => hasSub t w))
  else if k == pkAsymmetricDistributions then
    hasSub t kwAssimetrica || hasSub t kwAsymmetric || hasSub t kwSkew
  else if k == pkHasClusters then hasSub t kwCluster || hasSub t kwAgrupamento
  else if k == pkHasTemporalPatterns then
    hasSub t kwTendencia || hasSub t kwTrend || hasSub t kwPadraoTemporal
  else false

/-- Every recognized keyword of `_extract_patterns`. -/
def recognizedKeywords : List Text :=
  [kwCorrPT, kwCorrEN, kwForte, kwStrong, kwOutlier, kwAtipico, kwAltaPorc,
   kwHighPerc, kwMuitosOut, kwAssimetrica, kwAsymmetric, kwSkew, kwCluster,
   kwAgrupamento, kwTendencia, kwTrend, kwPadraoTemporal]

/-! ### Substring lemmas -/

theorem listStarts_refl (t : Text) : listStarts t t = true := by
  induction t with
  | nil => rfl
  | cons c rest ih => simp [listStarts, ih]

theorem listStarts_append (x b : Text) : listStarts (x ++ b) x = true := by
  induction x with
  | nil => cases b <;> rfl
  | cons c rest ih => simp [listStarts, ih]

theorem hasSub_of_listStarts {h n : Text} (hs : listStarts h n = true) :
    hasSub h n = true := by
  cases h with
  | nil => cases n with
    | nil => rfl
    | cons d ds => simp [listStarts] at hs
  | cons c rest => simp [hasSub, hs]

theorem hasSub_self (t : Text) : hasSub t t = true :=
  hasSub_of_listStarts (listStarts_refl t)

theorem hasSub_append_left (x b : Text) : hasSub (x ++ b) x = true :=
  hasSub_of_listStarts (listStarts_append x b)

theorem hasSub_append_right (s : Text) {t x : Text} (h : hasSub t x = true) :
    hasSub (s ++ t) x = true := by
  induction s with
  | nil => simpa using h
  | cons c rest ih => simp [hasSub, ih]

theorem hasSub_joinWith_of_mem {sep : Text} {l : List Text} {x : Text}
    (hx : x ∈ l) : hasSub (joinWith sep l) x = true := by
  induction l with
  | nil => cases hx
  | cons a rest ih =>
    cases rest with
    | nil =>
      rcases List.mem_singleton.mp hx with rfl
      exact hasSub_self x
    | cons b rest' =>
      rcases List.mem_cons.mp hx with rfl | hmem
      · simp only [joinWith, List.append_assoc]
        exact hasSub_append_left x _
      · simp only [joinWith, List.append_assoc]
        exact hasSub_append_right a (hasSub_append_right sep (ih hmem))

/-! ### Association-list lemmas -/

theorem dictLookup_dictSet_self {β : Type} (d : List (Text × β)) (k : Text) (v : β) :
    dictLookup (dictSet d k v) k = some v := by
  induction d with
  | nil => simp [dictSet, dictLookup]
  | cons p rest ih =>
    obtain ⟨k', v'⟩ := p
    by_cases hk : (k' == k) = true
    · simp [dictSet, dictLookup, hk]
    · simp only [dictSet, hk, Bool.false_eq_true, if_false]
      simp [dictLookup, hk, ih]

theorem mem_dictSet {β : Type} {d : List (Text × β)} {k : Text} {v : β}
    {p : Text × β} (hp : p ∈ dictSet d k v) : p ∈ d ∨ p.2 = v := by
  induction d with
  | nil =>
    simp [dictSet] at hp
    right; rw [hp]
  | cons q rest ih =>
    obtain ⟨k', v'⟩ := q
    by_cases hk : (k' == k) = true
    · simp only [dictSet, hk, if_true] at hp
      rcases List.mem_cons.mp hp with rfl | hmem
      · right; rfl
      · left; exact List.mem_cons_of_mem _ hmem
    · simp only [dictSet, hk, Bool.false_eq_true, if_false] at hp
      rcases List.mem_cons.mp hp with rfl | hmem
      · left; exact List.mem_cons_self _ _
      · rcases ih hmem with h | h
        · left; exact List.mem_cons_of_mem _ h
        · right; exact h

theorem dictLookup_mem {β : Type} {d : List (Text × β)} {k : Text} {b : β}
    (h : dictLookup d k = some b) : ∃ key, (key, b) ∈ d := by
  induction d with
  | nil => simp [dictLookup] at h
  | cons q rest ih =>
    obtain ⟨k', v'⟩ := q
    by_cases hk : (k' == k) = true
    · simp only [dictLookup, hk, if_true, Option.some.injEq] at h
      exact ⟨k', by rw [h]; exact List.mem_cons_self _ _⟩
    · simp only [dictLookup, hk, Bool.false_eq_true, if_false] at h
      obtain ⟨key, hmem⟩ := ih h
      exact ⟨key, List.mem_cons_of_mem _ hmem⟩

/-! ### Rolling-history (deque) lemmas -/

theorem dequePush_length {α : Type} (cap : Nat) (h : List α) (x : α) :
    (dequePush cap h x).length = min (h.length + 1) cap := by
  simp only [dequePush, List.length_drop, List.length_append, List.length_cons,
    List.length_nil]
  omega

theorem foldl_dequePush {α : Type} (cap : Nat) (xs : List α) :
    ∀ h : List α, h.length ≤ cap →
      xs.foldl (dequePush cap) h = (h ++ xs).drop ((h ++ xs).length - cap) := by
  induction xs with
  | nil =>
    intro h hlen
    simp only [List.foldl_nil, List.append_nil]
    rw [show h.length - cap = 0 by omega, List.drop_zero]
  | cons x xs ih =>
    intro h hlen
    have hlen' : (dequePush cap h x).length ≤ cap := by
      rw [dequePush_length]; omega
    rw [List.foldl_cons, ih _ hlen']
    have hstep : dequePush cap h x = (h ++ [x]).drop (h.length + 1 - cap) := by
      simp only [dequePush, List.length_append, List.length_cons, List.length_nil]
    rw [hstep]
    have hk : h.length + 1 - cap ≤ (h ++ [x]).length := by
      simp only [List.length_append, List.length_cons, List.length_nil]; omega
    rw [← List.drop_append_of_le_length hk, List.drop_drop]
    have hlist : h ++ [x] ++ xs = h ++ x :: xs := by
      rw [List.append_assoc]; rfl
    rw [hlist]
    congr 1
    simp only [List.length_append, List.length_drop, List.length_cons,
      List.length_nil]
    omega

/-! ### Session-fold lemmas -/

theorem max_interactions_foldl_add (inputs : List AddInput) :
    ∀ s : EnhancedSessionMemory,
      (inputs.foldl add_analysis s).max_interactions = s.max_interactions := by
  induction inputs with
  | nil => intro s; rfl
  | cons i rest ih => intro s; rw [List.foldl_cons, ih]; rfl

theorem analysis_history_foldl_add (inputs : List AddInput) :
    ∀ s : EnhancedSessionMemory,
      (inputs.foldl add_analysis s).analysis_history
        = (inputs.map mkEntry).foldl (dequePush s.max_interactions)
            s.analysis_history := by
  induction inputs with
  | nil => intro s; rfl
  | cons i rest ih =>
    intro s
    rw [List.foldl_cons, ih, List.map_cons, List.foldl_cons]
    rfl

/-- The history after any sequence of appends to a fresh session is the
suffix of the appended entries that fits the capacity. -/
theorem history_after_adds (cap : Nat) (inputs : List AddInput) :
    (inputs.foldl add_analysis (freshSession cap)).analysis_history
      = (inputs.map mkEntry).drop (inputs.length - cap) := by
  rw [analysis_history_foldl_add]
  show (inputs.map mkEntry).foldl (dequePush cap) [] = _
  rw [foldl_dequePush cap (inputs.map mkEntry) [] (by simp)]
  simp

theorem insightCount_add (s : EnhancedSessionMemory) (i : AddInput) :
    insightCount (add_analysis s i) i.analysis_type
      = insightCount s i.analysis_type + 1 := by
  show insightCount
    { s with
      analysis_history := _
      data_insights := updateInsights s.data_insights (mkEntry i)
      global_patterns := _ } i.analysis_type = _
  unfold insightCount updateInsights
  rw [show (mkEntry i).analysis_type = i.analysis_type from rfl]
  rw [dictLookup_dictSet_self]
  cases hl : dictLookup s.data_insights i.analysis_type <;> simp [hl]

theorem insightCount_foldl_replicate (i : AddInput) :
    ∀ (n : Nat) (s : EnhancedSessionMemory),
      insightCount ((List.replicate n i).foldl add_analysis s) i.analysis_type
        = insightCount s i.analysis_type + n := by
  intro n
  induction n with
  | zero => intro s; rfl
  | succ m ih =>
    intro s
    rw [List.replicate_succ, List.foldl_cons, ih, insightCount_add]
    omega

/-! ### Ranking lemmas -/

theorem mem_insertByScore {x p : AnalysisMemory × Nat}
    {l : List (AnalysisMemory × Nat)} (hp : p ∈ insertByScore x l) :
    p = x ∨ p ∈ l := by
  induction l with
  | nil =>
    rw [show insertByScore x [] = [x] from rfl] at hp
    exact Or.inl (List.mem_singleton.mp hp)
  | cons y ys ih =>
    by_cases hc : y.2 ≤ x.2
    · simp only [insertByScore, if_pos hc] at hp
      rcases List.mem_cons.mp hp with rfl | h
      · exact Or.inl rfl
      · exact Or.inr h
    · simp only [insertByScore, if_neg hc] at hp
      rcases List.mem_cons.mp hp with rfl | h
      · exact Or.inr (List.mem_cons_self _ _)
      · rcases ih h with h' | h'
        · exact Or.inl h'
        · exact Or.inr (List.mem_cons_of_mem _ h')

theorem mem_sortByScoreDesc {p : AnalysisMemory × Nat}
    {l : List (AnalysisMemory × Nat)} (hp : p ∈ sortByScoreDesc l) : p ∈ l := by
  induction l with
  | nil => exact hp
  | cons x xs ih =>
    rcases mem_insertByScore hp with rfl | h
    · exact List.mem_cons_self _ _
    · exact List.mem_cons_of_mem _ (ih h)

theorem pairwise_insertByScore {x : AnalysisMemory × Nat}
    {l : List (AnalysisMemory × Nat)}
    (hl : l.Pairwise (fun a b => b.2 ≤ a.2)) :
    (insertByScore x l).Pairwise (fun a b => b.2 ≤ a.2) := by
  induction l with
  | nil => simp [insertByScore]
  | cons y ys ih =>
    rcases List.pairwise_cons.mp hl with ⟨hy, hys⟩
    by_cases hc : y.2 ≤ x.2
    · simp only [insertByScore, if_pos hc]
      refine List.pairwise_cons.mpr ⟨?_, hl⟩
      intro b hb
      rcases List.mem_cons.mp hb with rfl | h
      · exact hc
      · exact le_trans (hy b h) hc
    · simp only [insertByScore, if_neg hc]
      refine List.pairwise_cons.mpr ⟨?_, ih hys⟩
      intro b hb
      rcases mem_insertByScore hb with rfl | h
      · omega
      · exact hy b h

theorem pairwise_sortByScoreDesc (l : List (AnalysisMemory × Nat)) :
    (sortByScoreDesc l).Pairwise (fun a b => b.2 ≤ a.2) := by
  induction l with
  | nil => simp [sortByScoreDesc]
  | cons x xs ih => exact pairwise_insertByScore ih

theorem filter_insertByScore (v : Nat) (x : AnalysisMemory × Nat)
    (l : List (AnalysisMemory × Nat)) :
    (insertByScore x l).filter (fun p => decide (p.2 = v))
      = if x.2 = v then x :: l.filter (fun p => decide (p.2 = v))
        else l.filter (fun p => decide (p.2 = v)) := by
  induction l with
  | nil =>
    by_cases hv : x.2 = v <;> simp [insertByScore, List.filter, hv]
  | cons y ys ih =>
    by_cases hc : y.2 ≤ x.2
    · simp only [insertByScore, if_pos hc]
      by_cases hv : x.2 = v <;> simp [List.filter, hv]
    · simp only [insertByScore, if_neg hc]
      by_cases hv : x.2 = v
      · have hyv : ¬ y.2 = v := by omega
        simp [List.filter, hyv, ih, hv]
      · by_cases hyv : y.2 = v <;> simp [List.filter, hyv, ih, hv]

theorem filter_sortByScoreDesc (v : Nat) (l : List (AnalysisMemory × Nat)) :
    (sortByScoreDesc l).filter (fun p => decide (p.2 = v))
      = l.filter (fun p => decide (p.2 = v)) := by
  induction l with
  | nil => rfl
  | cons x xs ih =>
    show (insertByScore x (sortByScoreDesc xs)).filter _ = _
    rw [filter_insertByScore]
    by_cases hv : x.2 = v <;> simp [List.filter, hv, ih]

/-! ### Global-pattern invariant lemmas -/

theorem updateGlobalPatterns_inv {gp : List (Text × PatternBucket)}
    (hgp : ∀ p ∈ gp, p.2.count = p.2.analyses.length) (e : AnalysisMemory) :
    ∀ p ∈ updateGlobalPatterns gp e, p.2.count = p.2.analyses.length := by
  show ∀ p ∈ e.data_patterns.foldl _ gp, _
  induction e.data_patterns generalizing gp with
  | nil => exact hgp
  | cons kv rest ih =>
    rw [List.foldl_cons]
    apply ih
    intro p hp
    rcases mem_dictSet hp with h | h
    · exact hgp p h
    · rw [h]
      simp only [List.length_append, List.length_cons, List.length_nil]
      cases hl : dictLookup gp kv.1 with
      | none => simp [hl]
      | some b =>
        obtain ⟨key, hmem⟩ := dictLookup_mem hl
        have := hgp (key, b) hmem
        simp only at this
        simp [hl, this]

theorem foldl_applyOp_inv (ops : List MemOp) :
    ∀ s : EnhancedSessionMemory,
      (∀ p ∈ s.global_patterns, p.2.count = p.2.analyses.length) →
      ∀ p ∈ (ops.foldl applyOp s).global_patterns,
        p.2.count = p.2.analyses.length := by
  induction ops with
  | nil => intro s hs; exact hs
  | cons op rest ih =>
    intro s hs
    rw [List.foldl_cons]
    apply ih
    cases op with
    | add i => exact updateGlobalPatterns_inv hs (mkEntry i)
    | clearOp => intro p hp; cases hp

theorem patternsOfFlags_keys (b1 b2 b3 b4 b5 b6 b7 : Bool) :
    (patternsOfFlags b1 b2 b3 b4 b5 b6 b7).map Prod.fst
      = patternVocab.filter (triggerOfFlags b1 b2 b3 b4 b5 b6 b7) := by
  cases b1 <;> cases b2 <;> cases b3 <;> cases b4 <;> cases b5 <;> cases b6
    <;> cases b7 <;> decide

theorem mem_insertByScore_self (x : AnalysisMemory × Nat)
    (l : List (AnalysisMemory × Nat)) : x ∈ insertByScore x l := by
  induction l with
  | nil => exact List.mem_singleton.mpr rfl
  | cons y ys ih =>
    by_cases hc : y.2 ≤ x.2
    · simp only [insertByScore, if_pos hc]
      exact List.mem_cons_self _ _
    · simp only [insertByScore, if_neg hc]
      exact List.mem_cons_of_mem _ ih

theorem mem_insertByScore_of_mem {p : AnalysisMemory × Nat}
    {l : List (AnalysisMemory × Nat)} (x : AnalysisMemory × Nat)
    (hp : p ∈ l) : p ∈ insertByScore x l := by
  induction l with
  | nil => cases hp
  | cons y ys ih =>
    by_cases hc : y.2 ≤ x.2
    · simp only [insertByScore, if_pos hc]
      exact List.mem_cons_of_mem _ hp
    · simp only [insertByScore, if_neg hc]
      rcases List.mem_cons.mp hp with rfl | h
      · exact List.mem_cons_self _ _
      · exact List.mem_cons_of_mem _ (ih h)

theorem mem_sortByScoreDesc_of_mem {p : AnalysisMemory × Nat}
    {l : List (AnalysisMemory × Nat)} (hp : p ∈ l) : p ∈ sortByScoreDesc l := by
  induction l with
  | nil => cases hp
  | cons x xs ih =>
    show p ∈ insertByScore x (sortByScoreDesc xs)
    rcases List.mem_cons.mp hp with rfl | h
    · exact mem_insertByScore_self _ _
    · exact mem_insertByScore_of_mem _ (ih h)

/-- Every element of the ranked list carries a positive score, and that
score is exactly the relevance score of its entry. -/
theorem relevantRanked_score (hist : List AnalysisMemory) (q : Text) :
    ∀ p ∈ relevantRanked hist q,
      0 < p.2 ∧ p.2 = scoreEntry (toLowerText q) p.1 := by
  intro p hp
  have hmem := mem_sortByScoreDesc hp
  have hpos := List.of_mem_filter hmem
  have hm := List.mem_of_mem_filter hmem
  obtain ⟨e, _, heq⟩ := List.mem_map.mp hm
  refine ⟨by simpa using hpos, ?_⟩
  rw [← heq]

/-! ### Claims -/

/-- C2: for every sequence of N appends via `add_analysis` to a fresh
session whose history capacity is C with C < N, the final history length
equals C and the history contents are exactly the last C appended entries
in their original insertion order (the oldest entries are evicted, with no
error and no re-sorting). -/
theorem claim_C2 (cap : Nat) (inputs : List AddInput)
    (h : cap < inputs.length) :
    (inputs.foldl add_analysis (freshSession cap)).analysis_history.length = cap
    ∧ (inputs.foldl add_analysis (freshSession cap)).analysis_history
        = (inputs.map mkEntry).drop (inputs.length - cap) := by
  have hh := history_after_adds cap inputs
  refine ⟨?_, hh⟩
  rw [hh, List.length_drop, List.length_map]
  omega

/-- Witness for C2 at capacity 1 and two appends. -/
theorem claim_C2_witness :
    1 < ([c2InputA, c2InputB] : List AddInput).length
    ∧ (([c2InputA, c2InputB].foldl add_analysis
          (freshSession 1)).analysis_history.length = 1
       ∧ ([c2InputA, c2InputB].foldl add_analysis
            (freshSession 1)).analysis_history
          = ([c2InputA, c2InputB].map mkEntry).drop
              (([c2InputA, c2InputB] : List AddInput).length - 1)) :=
  ⟨by decide, claim_C2 1 [c2InputA, c2InputB] (by decide)⟩

/-- C3: after 101 `add_analysis` calls of type `correlation` on a fresh
capacity-100 session, the history holds exactly 100 entries while the
Insight Aggregator bucket for `correlation` counts 101 — aggregate counts
persist past the eviction of their source entries. -/
theorem claim_C3 :
    c3Session.analysis_history.length = 100
    ∧ insightCount c3Session ("correlation".data) = 101 := by
  constructor
  · show ((List.replicate 101 c3Input).foldl add_analysis
      (freshSession 100)).analysis_history.length = 100
    rw [history_after_adds, List.length_drop, List.length_map,
      List.length_replicate]
  · show insightCount ((List.replicate 101 c3Input).foldl add_analysis
      (freshSession 100)) c3Input.analysis_type = 101
    rw [insightCount_foldl_replicate]
    rfl

/-- C7: on an empty history, `generate_summary` returns its fixed
"no analyses yet" message and `generate_comprehensive_conclusions` its
fixed prompt-to-analyze-first message (each a constant string; both
functions are pure by construction, so no state changes). -/
theorem claim_C7 (s : EnhancedSessionMemory) (h : s.analysis_history = []) :
    generate_summary s = ("Nenhuma análise realizada ainda.".data)
    ∧ generate_comprehensive_conclusions s
        = ("Nenhuma análise foi realizada ainda. Por favor, faça algumas análises primeiro.".data) := by
  constructor
  · simp [generate_summary, h]
  · simp [generate_comprehensive_conclusions, h]

/-- Witness for C7 at a fresh session. -/
theorem claim_C7_witness :
    generate_summary (freshSession 100) = ("Nenhuma análise realizada ainda.".data)
    ∧ generate_comprehensive_conclusions (freshSession 100)
        = ("Nenhuma análise foi realizada ainda. Por favor, faça algumas análises primeiro.".data) :=
  claim_C7 (freshSession 100) rfl

/-- C8: after a single `add_analysis` of type `correlation` with analysis
text containing "correlação forte", the Global Pattern Tracker holds
exactly the entries `has_correlations` and `strong_correlations`, each
with count 1 and analyses list `["correlation"]`. -/
theorem claim_C8 :
    c8Session.global_patterns
      = [(pkHasCorrelations, { count := 1, analyses := ["correlation".data] }),
         (pkStrongCorrelations, { count := 1, analyses := ["correlation".data] })] := by
  decide

/-- C9: the findings extractor returns at most 10 strings and the
recommendations extractor at most 5, for every input. -/
theorem claim_C9 (r : AnalysisResult) :
    (extract_key_findings r).length ≤ 10
    ∧ (extract_recommendations r).length ≤ 5 :=
  ⟨List.length_take_le 10 _, List.length_take_le 5 _⟩

/-- C10: in every session state reachable from a fresh session by
`add_analysis` and `clear` calls, every tracked global pattern's count
equals the length of its analyses list. -/
theorem claim_C10 (cap : Nat) (ops : List MemOp) (p : Text × PatternBucket)
    (hp : p ∈ (runOps cap ops).global_patterns) :
    p.2.count = p.2.analyses.length :=
  foldl_applyOp_inv ops (freshSession cap) (fun _ hq => absurd hq (List.not_mem_nil _)) p hp

/-- Witness for C10 at the session reached by one `correlation` append. -/
theorem claim_C10_witness :
    ((pkHasCorrelations,
        ({ count := 1, analyses := ["correlation".data] } : PatternBucket)) :
      Text × PatternBucket).2.count
      = ((pkHasCorrelations,
            ({ count := 1, analyses := ["correlation".data] } : PatternBucket)) :
          Text × PatternBucket).2.analyses.length :=
  claim_C10 100 [MemOp.add c8Input]
    (pkHasCorrelations, { count := 1, analyses := ["correlation".data] })
    (by decide)


set_option maxRecDepth 8000 in
/-- Counterexample to C1 as stated: a non-empty session (one pattern-free
entry) whose rendered conclusions contain neither the section 6 header nor
the section 7 header — the source emits those sections only when
`has_clusters` / `has_temporal_patterns` are tracked. -/
theorem claim_C1_counterexample :
    c1Session.analysis_history ≠ []
    ∧ hasSub (generate_comprehensive_conclusions c1Session) hdr6 = false
    ∧ hasSub (generate_comprehensive_conclusions c1Session) hdr7 = false := by
  decide

/-- C1 amended: for every non-empty session, the conclusions contain the
headers of sections 1–5, 8 and 9 unconditionally; the clustering section 6
and temporal section 7 headers appear when `has_clusters` /
`has_temporal_patterns` are present in the global pattern tracker (and, per
the counterexample, are omitted when they are absent). -/
theorem claim_C1_amended (s : EnhancedSessionMemory)
    (h : s.analysis_history ≠ []) :
    (hasSub (generate_comprehensive_conclusions s) hdr1 = true
     ∧ hasSub (generate_comprehensive_conclusions s) hdr2 = true
     ∧ hasSub (generate_comprehensive_conclusions s) hdr3 = true
     ∧ hasSub (generate_comprehensive_conclusions s) hdr4 = true
     ∧ hasSub (generate_comprehensive_conclusions s) hdr5 = true
     ∧ hasSub (generate_comprehensive_conclusions s) hdr8 = true
     ∧ hasSub (generate_comprehensive_conclusions s) hdr9 = true)
    ∧ (hasKey s.global_patterns pkHasClusters = true →
        hasSub (generate_comprehensive_conclusions s) hdr6 = true)
    ∧ (hasKey s.global_patterns pkHasTemporalPatterns = true →
        hasSub (generate_comprehensive_conclusions s) hdr7 = true) := by
  have hout : generate_comprehensive_conclusions s
      = joinWith ("\n".data) (conclusionsParts s) := by
    simp [generate_comprehensive_conclusions, h]
  rw [hout]
  refine ⟨⟨?_, ?_, ?_, ?_, ?_, ?_, ?_⟩, ?_, ?_⟩
  · refine hasSub_joinWith_of_mem ?_
    simp only [conclusionsParts, List.mem_append, List.mem_cons, List.mem_singleton]
    tauto
  · refine hasSub_joinWith_of_mem ?_
    simp only [conclusionsParts, List.mem_append, List.mem_cons, List.mem_singleton]
    tauto
  · refine hasSub_joinWith_of_mem ?_
    simp only [conclusionsParts, List.mem_append, List.mem_cons, List.mem_singleton]
    tauto
  · refine hasSub_joinWith_of_mem ?_
    simp only [conclusionsParts, List.mem_append, List.mem_cons, List.mem_singleton]
    tauto
  · refine hasSub_joinWith_of_mem ?_
    simp only [conclusionsParts, List.mem_append, List.mem_cons, List.mem_singleton]
    tauto
  · refine hasSub_joinWith_of_mem ?_
    simp only [conclusionsParts, List.mem_append, List.mem_cons, List.mem_singleton]
    tauto
  · refine hasSub_joinWith_of_mem ?_
    simp only [conclusionsParts, List.mem_append, List.mem_cons, List.mem_singleton]
    tauto
  · intro hk
    refine hasSub_joinWith_of_mem ?_
    simp only [conclusionsParts, List.mem_append, List.mem_cons,
      List.mem_singleton, hk]
    tauto
  · intro hk
    refine hasSub_joinWith_of_mem ?_
    simp only [conclusionsParts, List.mem_append, List.mem_cons,
      List.mem_singleton, hk]
    tauto

set_option maxRecDepth 8000 in
/-- Witness for the amended C1 at a session whose patterns include
`has_clusters` and `has_temporal_patterns`. -/
theorem claim_C1_amended_witness :
    (hasSub (generate_comprehensive_conclusions cwSession) hdr1 = true
     ∧ hasSub (generate_comprehensive_conclusions cwSession) hdr2 = true
     ∧ hasSub (generate_comprehensive_conclusions cwSession) hdr3 = true
     ∧ hasSub (generate_comprehensive_conclusions cwSession) hdr4 = true
     ∧ hasSub (generate_comprehensive_conclusions cwSession) hdr5 = true
     ∧ hasSub (generate_comprehensive_conclusions cwSession) hdr8 = true
     ∧ hasSub (generate_comprehensive_conclusions cwSession) hdr9 = true)
    ∧ hasSub (generate_comprehensive_conclusions cwSession) hdr6 = true
    ∧ hasSub (generate_comprehensive_conclusions cwSession) hdr7 = true := by
  have hmain := claim_C1_amended cwSession (by decide)
  exact ⟨hmain.1, hmain.2.1 (by decide), hmain.2.2 (by decide)⟩

/-- C5: `get_contextual_memory` returns at most `n` entries, drawn from a
ranking in which every entry's score is positive and equal to its relevance
score, the ranking is sorted in descending score order, entries of equal
score keep the newest-first walk order (more recently added first), and an
empty history yields an empty result. -/
theorem claim_C5 (s : EnhancedSessionMemory) (q : Text) (n : Nat) :
    (get_contextual_memory s q n).length ≤ n
    ∧ (∀ p ∈ relevantRanked s.analysis_history q,
        0 < p.2 ∧ p.2 = scoreEntry (toLowerText q) p.1)
    ∧ (relevantRanked s.analysis_history q).Pairwise (fun a b => b.2 ≤ a.2)
    ∧ (∀ v : Nat,
        (relevantRanked s.analysis_history q).filter (fun p => decide (p.2 = v))
          = (newestFirstScored s.analysis_history q).filter
              (fun p => decide (p.2 = v)))
    ∧ (s.analysis_history = [] → get_contextual_memory s q n = []) := by
  refine ⟨?_, relevantRanked_score _ _, pairwise_sortByScoreDesc _,
    fun v => filter_sortByScoreDesc v _, ?_⟩
  · show (((relevantRanked s.analysis_history q).take n).map Prod.fst).length ≤ n
    rw [List.length_map]
    exact List.length_take_le n _
  · intro h
    simp [get_contextual_memory, relevantRanked, newestFirstScored, h,
      sortByScoreDesc]

/-- Witness for C5 at a concrete session, question and limit. -/
theorem claim_C5_witness :
    (get_contextual_memory c8Session ("correlação".data) 3).length ≤ 3
    ∧ get_contextual_memory (freshSession 5) ("correlação".data) 3 = [] :=
  ⟨(claim_C5 c8Session ("correlação".data) 3).1,
   (claim_C5 (freshSession 5) ("correlação".data) 3).2.2.2.2 rfl⟩

/-- C6: the key set of the mapping returned by the pattern extractor is
exactly the subset of the fixed vocabulary whose trigger condition holds on
the lowercased text (never an unrecognized key), and a text containing no
recognized keyword yields an empty mapping. -/
theorem claim_C6 (r : AnalysisResult) :
    (extract_patterns r).map Prod.fst
      = patternVocab.filter (specTrigger (toLowerText r.analysis))
    ∧ ((∀ kw ∈ recognizedKeywords, hasSub (toLowerText r.analysis) kw = false)
        → extract_patterns r = []) := by
  constructor
  · exact patternsOfFlags_keys
      (hasSub (toLowerText r.analysis) kwCorrPT
        || hasSub (toLowerText r.analysis) kwCorrEN)
      (hasSub (toLowerText r.analysis) kwForte
        || hasSub (toLowerText r.analysis) kwStrong)
      (hasSub (toLowerText r.analysis) kwOutlier
        || hasSub (toLowerText r.analysis) kwAtipico)
      ([kwAltaPorc, kwHighPerc, kwMuitosOut].any
        (fun w => hasSub (toLowerText r.analysis) w))
      (hasSub (toLowerText r.analysis) kwAssimetrica
        || hasSub (toLowerText r.analysis) kwAsymmetric
        || hasSub (toLowerText r.analysis) kwSkew)
      (hasSub (toLowerText r.analysis) kwCluster
        || hasSub (toLowerText r.analysis) kwAgrupamento)
      (hasSub (toLowerText r.analysis) kwTendencia
        || hasSub (toLowerText r.analysis) kwTrend
        || hasSub (toLowerText r.analysis) kwPadraoTemporal)
  · intro h
    have h1 := h kwCorrPT (by simp [recognizedKeywords])
    have h2 := h kwCorrEN (by simp [recognizedKeywords])
    have h3 := h kwForte (by simp [recognizedKeywords])
    have h4 := h kwStrong (by simp [recognizedKeywords])
    have h5 := h kwOutlier (by simp [recognizedKeywords])
    have h6 := h kwAtipico (by simp [recognizedKeywords])
    have h7 := h kwAltaPorc (by simp [recognizedKeywords])
    have h8 := h kwHighPerc (by simp [recognizedKeywords])
    have h9 := h kwMuitosOut (by simp [recognizedKeywords])
    have h10 := h kwAssimetrica (by simp [recognizedKeywords])
    have h11 := h kwAsymmetric (by simp [recognizedKeywords])
    have h12 := h kwSkew (by simp [recognizedKeywords])
    have h13 := h kwCluster (by simp [recognizedKeywords])
    have h14 := h kwAgrupamento (by simp [recognizedKeywords])
    have h15 := h kwTendencia (by simp [recognizedKeywords])
    have h16 := h kwTrend (by simp [recognizedKeywords])
    have h17 := h kwPadraoTemporal (by simp [recognizedKeywords])
    simp [extract_patterns, h1, h2, h3, h4, h5, h6, h7, h8, h9, h10, h11,
      h12, h13, h14, h15, h16, h17]

/-- Witness for C6 at the empty text. -/
theorem claim_C6_witness :
    ((extract_patterns { analysis := [], plots := [] }).map Prod.fst
      = patternVocab.filter (specTrigger (toLowerText [])))
    ∧ extract_patterns { analysis := [], plots := [] } = [] :=
  ⟨(claim_C6 { analysis := [], plots := [] }).1,
   (claim_C6 { analysis := [], plots := [] }).2 (by decide)⟩

theorem typeScore_eq_three {q : Text} {e : AnalysisMemory}
    {fam : Text × List Text} (hfam : fam ∈ type_keywords)
    (hkw : ∃ w ∈ fam.2, hasSub q w = true)
    (htype : e.analysis_type = fam.1) : typeScore q e = 3 := by
  unfold typeScore
  rw [if_pos]
  rw [List.any_eq_true]
  refine ⟨fam, hfam, ?_⟩
  obtain ⟨w, hw, hsub⟩ := hkw
  rw [Bool.and_eq_true, List.any_eq_true]
  exact ⟨⟨w, hw, hsub⟩, by simp [htype]⟩

theorem typeScore_eq_zero {q : Text} {e : AnalysisMemory}
    (hnot : ∀ fam ∈ type_keywords,
      (∃ w ∈ fam.2, hasSub q w = true) → e.analysis_type ≠ fam.1) :
    typeScore q e = 0 := by
  unfold typeScore
  rw [if_neg]
  intro hany
  rw [List.any_eq_true] at hany
  obtain ⟨fam, hfam, hcond⟩ := hany
  rw [Bool.and_eq_true, List.any_eq_true] at hcond
  obtain ⟨⟨w, hw, hsub⟩, hbeq⟩ := hcond
  exact hnot fam hfam ⟨w, hw, hsub⟩ (by simpa using hbeq)

/-- C4: when the question contains a keyword of a fixed analysis-type
family, the history entry whose type equals that family's tag scores at
least 3, appears in the ranking, and is ranked strictly before an
otherwise-identical entry whose type matches no family triggered by the
question. -/
theorem claim_C4 (hist : List AnalysisMemory) (q : Text)
    (e e' : AnalysisMemory) (fam : Text × List Text)
    (_hdist : hist.Pairwise (fun a b => a.analysis_type ≠ b.analysis_type))
    (he : e ∈ hist) (_he' : e' ∈ hist)
    (hfam : fam ∈ type_keywords)
    (hkw : ∃ w ∈ fam.2, hasSub (toLowerText q) w = true)
    (htype : e.analysis_type = fam.1)
    (hnot : ∀ fam' ∈ type_keywords,
      (∃ w ∈ fam'.2, hasSub (toLowerText q) w = true)
        → e'.analysis_type ≠ fam'.1)
    (hq : e'.question = e.question) (_hts : e'.timestamp = e.timestamp)
    (_hkf : e'.key_findings = e.key_findings)
    (_hvz : e'.visualizations = e.visualizations)
    (_hdp : e'.data_patterns = e.data_patterns)
    (_hrec : e'.recommendations = e.recommendations) :
    3 ≤ scoreEntry (toLowerText q) e
    ∧ e ∈ (relevantRanked hist q).map Prod.fst
    ∧ (∀ i j (hi : i < ((relevantRanked hist q).map Prod.fst).length)
        (hj : j < ((relevantRanked hist q).map Prod.fst).length),
        ((relevantRanked hist q).map Prod.fst).get ⟨i, hi⟩ = e
        → ((relevantRanked hist q).map Prod.fst).get ⟨j, hj⟩ = e'
        → i < j) := by
  have hscore_e : scoreEntry (toLowerText q) e
      = (if (splitWs (toLowerText q)).any (fun w =>
          decide (3 < w.length) && hasSub (toLowerText e.question) w)
         then 2 else 0) + 3 := by
    unfold scoreEntry
    rw [typeScore_eq_three hfam hkw htype]
  have hscore_e' : scoreEntry (toLowerText q) e'
      = (if (splitWs (toLowerText q)).any (fun w =>
          decide (3 < w.length) && hasSub (toLowerText e.question) w)
         then 2 else 0) := by
    unfold scoreEntry
    rw [typeScore_eq_zero hnot, hq, Nat.add_zero]
  have hlt : scoreEntry (toLowerText q) e' < scoreEntry (toLowerText q) e := by
    rw [hscore_e, hscore_e']
    omega
  have hge3 : 3 ≤ scoreEntry (toLowerText q) e := by
    rw [hscore_e]; omega
  have hmem : (e, scoreEntry (toLowerText q) e) ∈ newestFirstScored hist q := by
    refine List.mem_filter.mpr ⟨?_, ?_⟩
    · exact List.mem_map.mpr ⟨e, List.mem_reverse.mpr he, rfl⟩
    · simp only [decide_eq_true_eq]
      omega
  have hrank : (e, scoreEntry (toLowerText q) e) ∈ relevantRanked hist q :=
    mem_sortByScoreDesc_of_mem hmem
  refine ⟨hge3, List.mem_map.mpr ⟨_, hrank, rfl⟩, ?_⟩
  intro i j hi hj hie hje
  by_contra hc
  push_neg at hc
  have hlen : ((relevantRanked hist q).map Prod.fst).length
      = (relevantRanked hist q).length := List.length_map _ _
  have hi' : i < (relevantRanked hist q).length := by omega
  have hj' : j < (relevantRanked hist q).length := by omega
  have hie' : ((relevantRanked hist q).get ⟨i, hi'⟩).1 = e := by
    rw [← hie]
    simp [List.get_eq_getElem, List.getElem_map]
  have hje' : ((relevantRanked hist q).get ⟨j, hj'⟩).1 = e' := by
    rw [← hje]
    simp [List.get_eq_getElem, List.getElem_map]
  rcases Nat.lt_or_ge j i with hji | hij
  · have hpair := List.pairwise_iff_get.mp (pairwise_sortByScoreDesc
      (newestFirstScored hist q)) ⟨j, hj'⟩ ⟨i, hi'⟩ hji
    have hsi := (relevantRanked_score hist q
      ((relevantRanked hist q).get ⟨i, hi'⟩) (by apply List.get_mem)).2
    have hsj := (relevantRanked_score hist q
      ((relevantRanked hist q).get ⟨j, hj'⟩) (by apply List.get_mem)).2
    rw [hie'] at hsi
    rw [hje'] at hsj
    have hple : ((relevantRanked hist q).get ⟨i, hi'⟩).2
        ≤ ((relevantRanked hist q).get ⟨j, hj'⟩).2 := hpair
    rw [hsi, hsj] at hple
    omega
  · have heq : i = j := by omega
    subst heq
    have hee' : e = e' := by
      rw [← hie']
      exact hje'
    exact hnot fam hfam hkw (by rw [← hee', htype])

/-- Witness for C4: a question that triggers the correlation family against
a two-entry history with types `outlier` (newer position irrelevant) and
`correlation`. -/
theorem claim_C4_witness :
    3 ≤ scoreEntry (toLowerText c4Q) c4EntryCorr
    ∧ c4EntryCorr ∈ (relevantRanked [c4EntryOut, c4EntryCorr] c4Q).map Prod.fst :=
  have hmain := claim_C4 [c4EntryOut, c4EntryCorr] c4Q c4EntryCorr c4EntryOut
    c4Fam (by decide) (by decide) (by decide) (by decide) (by decide)
    (by decide) (by decide) (by decide) (by decide) (by decide) (by decide)
    (by decide) (by decide)
  ⟨hmain.1, hmain.2.1⟩
